import Mathlib

/-!
Verification of the finos ERP simulator (services/erp-sim) and the
dual-channel ingestion pipeline (services/erp-extractor) against the
natural-language specification.

Conventions of the shallow embedding:
- Timestamps are integers counting milliseconds since the Unix epoch
  (JavaScript `Date.getTime()` values); ISO strings in payloads are
  represented by their epoch value.
- Quantities and prices are rationals; `Number(x.toFixed(n))` becomes
  rounding to n decimal places with ties away from zero on the
  non-negative values that occur here (JS rounds half up).
- `Math.random()` draws are passed in explicitly as rational parameters,
  and `randomUUID()` as a string parameter, so every function is a pure
  function of its inputs.
- Postgres tables are lists of rows; `ON CONFLICT ... DO NOTHING` is an
  existence check on the conflict key before appending; a transaction
  (`BEGIN`/`COMMIT`/`ROLLBACK`) is all-or-nothing: a failed transaction
  yields the original database value.
-/

namespace Finos

/-- Milliseconds in a simulated day, as in `days * 24 * 60 * 60 * 1000`. -/
def dayMs : Int := 86400000

/-- Source `addDays(date, days)`: shift an epoch-millisecond timestamp by whole days. -/
def addDays (dateMs : Int) (days : Int) : Int :=
  dateMs + days * dayMs

/-- Civil (proleptic Gregorian, UTC) date from a count of days since the epoch,
the arithmetic underlying JavaScript `Date.getUTCFullYear` / `getUTCMonth` /
`getUTCDate`.  Returns (year, month 1..12, day 1..31). -/
def civilFromDays (z0 : Int) : Int × Int × Int :=
  let z := z0 + 719468
  let era : Int := Int.fdiv z 146097
  let doe : Int := z - era * 146097
  let yoe : Int := (doe - doe / 1460 + doe / 36524 - doe / 146096) / 365
  let y : Int := yoe + era * 400
  let doy : Int := doe - (365 * yoe + yoe / 4 - yoe / 100)
  let mp : Int := (5 * doy + 2) / 153
  let d : Int := doy - (153 * mp + 2) / 5 + 1
  let m : Int := mp + (if mp < 3 then 3 else -9)
  (y + (if m ≤ 2 then 1 else 0), m, d)

/-- Inverse of `civilFromDays`: days since the epoch of a civil UTC date,
the arithmetic underlying `Date.UTC(year, month0, day)`. -/
def daysFromCivil (y m d : Int) : Int :=
  let y1 := y - (if m ≤ 2 then 1 else 0)
  let era : Int := Int.fdiv y1 400
  let yoe : Int := y1 - era * 400
  let doy : Int := (153 * (m + (if 2 < m then -3 else 9)) + 2) / 5 + d - 1
  let doe : Int := yoe * 365 + yoe / 4 - yoe / 100 + doy
  era * 146097 + doe - 719468

/-- Source `monthKey(d)`: the year-month pair identifying d's UTC calendar
month.  The source renders it as the string "YYYY-MM"; two timestamps get
equal key strings exactly when their (year, month) pairs are equal, so the
pair is a faithful representation of the key. -/
def monthKey (ms : Int) : Int × Int :=
  let c := civilFromDays (Int.fdiv ms dayMs)
  (c.1, c.2.1)

/-- Source `startOfMonthUTC(d)`: midnight UTC on the first day of d's month. -/
def startOfMonthUTC (ms : Int) : Int :=
  let c := civilFromDays (Int.fdiv ms dayMs)
  daysFromCivil c.1 c.2.1 1 * dayMs

/-- Source `endOfMonthUTC(d)`: 23:59:59.999 UTC on the last day of d's month,
which is one millisecond before the start of the following month. -/
def endOfMonthUTC (ms : Int) : Int :=
  let c := civilFromDays (Int.fdiv ms dayMs)
  (if c.2.1 = 12 then daysFromCivil (c.1 + 1) 1 1 else daysFromCivil c.1 (c.2.1 + 1) 1) * dayMs - 1

/-- JavaScript `Math.round`: round half toward positive infinity, which is
exactly Mathlib's `round` on the rationals. -/
def jsRound (q : ℚ) : Int := round q

/-- JavaScript `Number(x.toFixed(2))` on the non-negative values used here:
round to two decimal places. -/
def round2 (q : ℚ) : ℚ := (round (100 * q) : ℚ) / 100

/-- JavaScript `Number(x.toFixed(4))`: round to four decimal places. -/
def round4 (q : ℚ) : ℚ := (round (10000 * q) : ℚ) / 10000

/-- Source `randomWithin(base, variationPct)` with the `Math.random()` draw u
made explicit: `Math.max(0, base + base * variationPct * (u - 0.5) * 2)`. -/
def randomWithin (base variationPct u : ℚ) : ℚ :=
  max 0 (base + base * variationPct * (u - 1/2) * 2)

/-- Purchase order payload as produced by the simulator and consumed by the
extractor.  `status` is a string: the simulator's type names the literals
"confirmed" and "draft", the extractor's declaration names "in_approval",
"executed" and "supplied". -/
structure PurchaseOrder where
  id : String
  companyId : String
  commodityId : String
  commodityName : String
  quantity : ℚ
  unit : String
  pricePerUnit : ℚ
  currency : String
  deliveryDate : Int
  createdAt : Int
  status : String
deriving DecidableEq

/-- Inventory snapshot payload. -/
structure InventorySnapshot where
  id : String
  companyId : String
  commodityId : String
  commodityName : String
  onHand : ℚ
  unit : String
  asOf : Int
deriving DecidableEq

/-- Static commodity configuration entry. -/
structure Commodity where
  id : String
  name : String
  unit : String
  basePrice : ℚ
deriving DecidableEq

/-- Source `PendingDelivery`: a delivery scheduled when an order is created,
consumed when the simulated clock reaches its delivery date. -/
structure PendingDelivery where
  commodityId : String
  quantity : ℚ
  unit : String
  deliveryDate : Int
  purchaseOrderId : String
deriving DecidableEq

/-- Simulator configuration (the subset of `SimOptions` the modelled
behaviour depends on). -/
structure SimConfig where
  companyId : String
  stepDays : Int
  purchaseProbabilityPerMonth : ℚ
  currency : String
  commodities : List Commodity
  initialInventory : List (String × ℚ)
  consumptionPerDay : List (String × ℚ)

/-- Mutable simulator state captured by `createSimServer`'s closure. -/
structure SimState where
  purchaseOrders : List PurchaseOrder
  inventorySnapshots : List InventorySnapshot
  subscriptions : List String
  generatedMonths : List (String × (Int × Int))
  pendingDeliveries : List PendingDelivery
  inventoryByCommodity : String → ℚ
  simNow : Int

/-- Association-list lookup mirroring `record[key]` on a JS object /
`map.get(key)` on a JS Map (first binding wins). -/
def lookupQ (l : List (String × ℚ)) (k : String) : Option ℚ :=
  (l.find? (fun p => p.1 == k)).map (·.2)

/-- Pointwise update of an inventory function, mirroring `map.set(k, v)`. -/
def updateQ (f : String → ℚ) (k : String) (v : ℚ) : String → ℚ :=
  fun x => if x == k then v else f x

/-- Initial `inventoryByCommodity` map: each commodity starts at
`initialInventory[c.id] ?? 1000`; keys absent from the map read as 0
(`map.get(x) ?? 0` at every use site). -/
def initInventory (cfg : SimConfig) : String → ℚ :=
  fun id =>
    if cfg.commodities.any (fun c => c.id == id) then (lookupQ cfg.initialInventory id).getD 1000
    else 0

/-- Simulator state as built at the top of `createSimServer`. -/
def initSimState (cfg : SimConfig) (t : Int) : SimState :=
  { purchaseOrders := []
    inventorySnapshots := []
    subscriptions := []
    generatedMonths := []
    pendingDeliveries := []
    inventoryByCommodity := initInventory cfg
    simNow := t }

/-- Consumption phase shared by `bootstrapHistory`'s loop and
`advanceInventory`: for each commodity, decrement on-hand by
`rate * days`, floored at zero. -/
def consumeStep (cfg : SimConfig) (days : Int) (inv : String → ℚ) : String → ℚ :=
  cfg.commodities.foldl
    (fun acc c =>
      let rate := (lookupQ cfg.consumptionPerDay c.id).getD 0
      updateQ acc c.id (max 0 (acc c.id - rate * (days : ℚ))))
    inv

/-- Delivery phase shared by `bootstrapHistory`'s loop and
`advanceInventory`: walk `pendingDeliveries` in order, adding each
delivery whose date has been reached (`deliveryDate <= to`) to on-hand,
and keep the rest, in order, as the new pending list. -/
def applyDeliveries (toMs : Int) : List PendingDelivery → (String → ℚ) → ((String → ℚ) × List PendingDelivery)
  | [], inv => (inv, [])
  | d :: ds, inv =>
    if d.deliveryDate ≤ toMs then
      applyDeliveries toMs ds (updateQ inv d.commodityId (inv d.commodityId + d.quantity))
    else
      let r := applyDeliveries toMs ds inv
      (r.1, d :: r.2)

/-- Synthetic snapshot id `inv_${commodityId}_${asOf.toISOString()}`; the
ISO timestamp is rendered by its epoch value. -/
def snapId (commodityId : String) (asOf : Int) : String :=
  "inv_" ++ commodityId ++ "_" ++ toString asOf

/-- Source `recordWeeklyInventory(asOf, inventoryByCommodity)`: one
snapshot per commodity at the given instant, on-hand rounded to 2 decimals. -/
def recordWeeklyInventory (cfg : SimConfig) (asOf : Int) (inv : String → ℚ) : List InventorySnapshot :=
  cfg.commodities.map (fun c =>
    { id := snapId c.id asOf
      companyId := cfg.companyId
      commodityId := c.id
      commodityName := c.name
      onHand := round2 (inv c.id)
      unit := c.unit
      asOf := asOf })

/-- Source `advanceInventory(from, to)`: consumption for the elapsed days
(rounded, floored at 0, applied only when positive), then arrived
deliveries, then one snapshot per commodity at `to`. -/
def advanceInventory (cfg : SimConfig) (fromMs toMs : Int) (st : SimState) : SimState :=
  let days := max 0 (jsRound (((toMs - fromMs : Int) : ℚ) / (dayMs : ℚ)))
  let inv1 := if 0 < days then consumeStep cfg days st.inventoryByCommodity else st.inventoryByCommodity
  let r := applyDeliveries toMs st.pendingDeliveries inv1
  { st with
    inventoryByCommodity := r.1
    pendingDeliveries := r.2
    inventorySnapshots := st.inventorySnapshots ++ recordWeeklyInventory cfg toMs r.1 }

/-- One iteration of the weekly loop in `bootstrapHistory`: consumption of a
full step (`rate * stepDays`, unguarded), arrived deliveries, snapshot at
the end of the step. -/
def bootStep (cfg : SimConfig) (next : Int) (st : SimState) : SimState :=
  let inv1 := consumeStep cfg cfg.stepDays st.inventoryByCommodity
  let r := applyDeliveries next st.pendingDeliveries inv1
  { st with
    inventoryByCommodity := r.1
    pendingDeliveries := r.2
    inventorySnapshots := st.inventorySnapshots ++ recordWeeklyInventory cfg next r.1 }

/-- Inventory reset at the top of `bootstrapHistory`: clear the map and
refill it from the initial configuration. -/
def resetInventory (cfg : SimConfig) (st : SimState) : SimState :=
  { st with inventoryByCommodity := initInventory cfg }

/-- Explicit `Math.random()` / `randomUUID()` draws consumed by one
`maybeGenerateMonthlyOrder` call, in source order. -/
structure OrderRng where
  probDraw : ℚ
  offsetDraw : ℚ
  uuid : String
  qtyDraw : ℚ
  priceDraw : ℚ

/-- Pending delivery entry pushed by `maybeGenerateMonthlyOrder` for the
order it creates. -/
def mkPending (c : Commodity) (po : PurchaseOrder) : PendingDelivery :=
  { commodityId := c.id
    quantity := po.quantity
    unit := po.unit
    deliveryDate := po.deliveryDate
    purchaseOrderId := po.id }

/-- Source `maybeGenerateMonthlyOrder(commodity, monthStart)`: at most one
order per commodity per calendar month, gated by
`Math.random() > purchaseProbabilityPerMonth`; the order is created with
status "confirmed" and schedules exactly one pending delivery 30 days
after its creation date. -/
def maybeGenerateMonthlyOrder (cfg : SimConfig) (rng : OrderRng) (c : Commodity)
    (monthStart : Int) (st : SimState) : Option PurchaseOrder × SimState :=
  let key := monthKey monthStart
  if st.generatedMonths.any (fun g => g.1 == c.id && g.2 == key) then (none, st)
  else
    let st1 := { st with generatedMonths := st.generatedMonths ++ [(c.id, key)] }
    if cfg.purchaseProbabilityPerMonth < rng.probDraw then (none, st1)
    else
      let monthEnd := endOfMonthUTC monthStart
      let daySpan := max 1 ((monthEnd - monthStart).fdiv dayMs)
      let orderDayOffset := Int.floor (rng.offsetDraw * ((min daySpan 28 : Int) : ℚ))
      let createdAt := addDays monthStart orderDayOffset
      let deliveryDate := addDays createdAt 30
      let monthlyNeed := ((lookupQ cfg.consumptionPerDay c.id).getD 10) * 30
      let po : PurchaseOrder :=
        { id := rng.uuid
          companyId := cfg.companyId
          commodityId := c.id
          commodityName := c.name
          quantity := round2 (randomWithin monthlyNeed (35/100) rng.qtyDraw)
          unit := c.unit
          pricePerUnit := round4 (randomWithin c.basePrice (20/100) rng.priceDraw)
          currency := cfg.currency
          deliveryDate := deliveryDate
          createdAt := createdAt
          status := "confirmed" }
      (some po, { st1 with pendingDeliveries := st1.pendingDeliveries ++ [mkPending c po] })

/-- Per-tick randomness: one `OrderRng` per commodity id. -/
structure TickRng where
  perCommodity : String → OrderRng

/-- The per-month generation loop of `start`'s timer callback (and of
`bootstrapHistory`): run `maybeGenerateMonthlyOrder` for every commodity,
collecting the orders that were created. -/
def generateMonthOrders (cfg : SimConfig) (rng : TickRng) (monthStart : Int)
    (st : SimState) : List PurchaseOrder × SimState :=
  cfg.commodities.foldl
    (fun acc c =>
      let r := maybeGenerateMonthlyOrder cfg (rng.perCommodity c.id) c monthStart acc.2
      match r.1 with
      | some po => (acc.1 ++ [po], r.2)
      | none => (acc.1, r.2))
    ([], st)

/-- Source `pushOrders(orders)`: append to the order list (webhook fan-out
is external and does not change simulator state). -/
def pushOrders (orders : List PurchaseOrder) (st : SimState) : SimState :=
  { st with purchaseOrders := st.purchaseOrders ++ orders }

/-- Stable insertion step for sorting generated orders by `createdAt`. -/
def insertByCreated (po : PurchaseOrder) : List PurchaseOrder → List PurchaseOrder
  | [] => [po]
  | q :: qs => if po.createdAt ≤ q.createdAt then po :: q :: qs else q :: insertByCreated po qs

/-- Stable ascending sort by `createdAt`, the comparator used before
`pushOrders` in the timer callback. -/
def sortByCreatedAt : List PurchaseOrder → List PurchaseOrder
  | [] => []
  | p :: ps => insertByCreated p (sortByCreatedAt ps)

/-- One firing of the live timer in `start()`: advance the clock by
`stepDays`; when the step crosses into a new calendar month, run the
monthly generation for that month and push any created orders; then
advance inventory over the step. -/
def tick (cfg : SimConfig) (rng : TickRng) (st : SimState) : SimState :=
  let before := st.simNow
  let after := addDays before cfg.stepDays
  let st1 :=
    if monthKey before ≠ monthKey after then
      let g := generateMonthOrders cfg rng (startOfMonthUTC after) st
      if g.1 ≠ [] then pushOrders (sortByCreatedAt g.1) g.2 else g.2
    else st
  let st2 := advanceInventory cfg before after st1
  { st2 with simNow := after }

/-- States reachable through the simulator's own operations: the initial
closure state, the inventory reset and generation passes of
`bootstrapHistory`, its weekly loop body, order pushes, and live ticks.
Every state an actual run visits is reachable by this relation. -/
inductive SimReach (cfg : SimConfig) : SimState → Prop
  | init (t : Int) : SimReach cfg (initSimState cfg t)
  | reset (st : SimState) : SimReach cfg st → SimReach cfg (resetInventory cfg st)
  | gen (rng : OrderRng) (c : Commodity) (monthStart : Int) (st : SimState) :
      SimReach cfg st → SimReach cfg (maybeGenerateMonthlyOrder cfg rng c monthStart st).2
  | push (orders : List PurchaseOrder) (st : SimState) :
      SimReach cfg st → SimReach cfg (pushOrders orders st)
  | boot (next : Int) (st : SimState) : SimReach cfg st → SimReach cfg (bootStep cfg next st)
  | adv (fromMs toMs : Int) (st : SimState) :
      SimReach cfg st → SimReach cfg (advanceInventory cfg fromMs toMs st)
  | tick (rng : TickRng) (st : SimState) : SimReach cfg st → SimReach cfg (tick cfg rng st)

/-- Body of a simulator HTTP response. -/
inductive SimBody where
  | errBody (msg : String)
  | poData (data : List PurchaseOrder)
  | invData (data : List InventorySnapshot)
  | okBody
deriving DecidableEq

/-- Simulator HTTP response: status code and body. -/
structure SimResp where
  status : Nat
  body : SimBody
deriving DecidableEq

/-- Purchase-order filter of `GET /erp/:companyId/purchase-orders`: with a
`since` parameter, keep orders created strictly after it; without one,
return the whole list. -/
def simQueryOrders (orders : List PurchaseOrder) (since : Option Int) : List PurchaseOrder :=
  match since with
  | none => orders
  | some s => orders.filter (fun po => decide (s < po.createdAt))

/-- Snapshot filter of `GET /erp/:companyId/inventory`: strictly after
`since` on `asOf`, or everything. -/
def simQueryInventory (snaps : List InventorySnapshot) (since : Option Int) : List InventorySnapshot :=
  match since with
  | none => snaps
  | some s => snaps.filter (fun sn => decide (s < sn.asOf))

/-- Handler of `GET /erp/:companyId/purchase-orders`. -/
def getPurchaseOrdersHandler (cfg : SimConfig) (st : SimState) (reqCompany : String)
    (since : Option Int) : SimResp × SimState :=
  if reqCompany ≠ cfg.companyId then (⟨404, .errBody "company not found"⟩, st)
  else (⟨200, .poData (simQueryOrders st.purchaseOrders since)⟩, st)

/-- Handler of `GET /erp/:companyId/inventory`. -/
def getInventoryHandler (cfg : SimConfig) (st : SimState) (reqCompany : String)
    (since : Option Int) : SimResp × SimState :=
  if reqCompany ≠ cfg.companyId then (⟨404, .errBody "company not found"⟩, st)
  else (⟨200, .invData (simQueryInventory st.inventorySnapshots since)⟩, st)

/-- Set-insertion into the subscription registry (`Set.add`). -/
def addSubscription (subs : List String) (u : String) : List String :=
  if u ∈ subs then subs else subs ++ [u]

/-- Handler of `POST /erp/:companyId/subscriptions`; the body's
`callbackUrl` is optional, and the source rejects any falsy value, which
for a string field means absent or empty. -/
def postSubscriptionsHandler (cfg : SimConfig) (st : SimState) (reqCompany : String)
    (callbackUrl : Option String) : SimResp × SimState :=
  if reqCompany ≠ cfg.companyId then (⟨404, .errBody "company not found"⟩, st)
  else
    match callbackUrl with
    | none => (⟨400, .errBody "callbackUrl required"⟩, st)
    | some u =>
      if u = "" then (⟨400, .errBody "callbackUrl required"⟩, st)
      else (⟨200, .okBody⟩, { st with subscriptions := addSubscription st.subscriptions u })

/-- Orders carried by a response (empty for non-order bodies). -/
def respOrders (r : SimResp) : List PurchaseOrder :=
  match r.body with
  | .poData l => l
  | _ => []

/-- Snapshots carried by a response (empty for other bodies). -/
def respSnaps (r : SimResp) : List InventorySnapshot :=
  match r.body with
  | .invData l => l
  | _ => []

/-- Payload stored in a `raw_erp_data` row (a JSON document in the store). -/
inductive RawPayload where
  | po (p : PurchaseOrder)
  | inv (s : InventorySnapshot)
deriving DecidableEq

/-- Row of the append-only `raw_erp_data` log.  `erpRecordId` is the
generated column `payload->>'id'` of migration 0004, and
(companyId, recordType, erpRecordId) is the unique constraint
`uq_raw_erp_po_id`. -/
structure RawRow where
  rowId : Nat
  companyId : String
  recordType : String
  erpRecordId : String
  payload : RawPayload
deriving DecidableEq

/-- Row of the structured `erp_purchase_orders` table (primary key `id`). -/
structure OrderRow where
  id : String
  companyId : String
  commodityId : String
  quantity : ℚ
  unit : String
  pricePerUnit : ℚ
  currency : String
  deliveryDate : Int
  createdAt : Int
  status : String
  rawErpDataId : Option Nat
deriving DecidableEq

/-- Row of the structured `erp_inventory_snapshots` table, keyed by
(company_id, commodity_id, as_of). -/
structure SnapshotRow where
  companyId : String
  commodityId : String
  onHand : ℚ
  unit : String
  asOf : Int
  rawErpDataId : Option Nat
deriving DecidableEq

/-- The extractor-visible database: the raw log, the two structured
tables, and the bigserial counter feeding `raw_erp_data.id`. -/
structure Db where
  raw : List RawRow
  orders : List OrderRow
  snapshots : List SnapshotRow
  nextRawId : Nat
deriving DecidableEq

/-- Does the raw log hold a row with the given conflict key? -/
def hasRaw (db : Db) (c t e : String) : Bool :=
  db.raw.any (fun r => r.companyId == c && r.recordType == t && r.erpRecordId == e)

/-- Row id of the raw row with the given key, if any (the `existing` CTE). -/
def rawIdOf (db : Db) (c t e : String) : Option Nat :=
  (db.raw.find? (fun r => r.companyId == c && r.recordType == t && r.erpRecordId == e)).map (·.rowId)

/-- Does `erp_purchase_orders` hold a row with the given primary key? -/
def hasStructOrder (db : Db) (i : String) : Bool :=
  db.orders.any (fun r => r.id == i)

/-- Does `erp_inventory_snapshots` hold a row with the given natural key? -/
def hasStructSnap (db : Db) (c cid : String) (asOf : Int) : Bool :=
  db.snapshots.any (fun r => r.companyId == c && r.commodityId == cid && r.asOf == asOf)

/-- Raw-log insert of `upsertRawAndStructured`: `INSERT ... ON CONFLICT
(company_id, record_type, erp_record_id) DO NOTHING` followed by the CTE
that resolves the row id whether it was just inserted or already there. -/
def upsertRawOrderStep (cfgCompany : String) (po : PurchaseOrder) (db : Db) : Db × Option Nat :=
  if hasRaw db cfgCompany "purchase_order" po.id then
    (db, rawIdOf db cfgCompany "purchase_order" po.id)
  else
    ({ db with
        raw := db.raw ++ [{ rowId := db.nextRawId, companyId := cfgCompany,
                            recordType := "purchase_order", erpRecordId := po.id,
                            payload := .po po }]
        nextRawId := db.nextRawId + 1 },
      some db.nextRawId)

/-- Structured insert of `upsertRawAndStructured`: `INSERT INTO
erp_purchase_orders ... ON CONFLICT (id) DO NOTHING`. -/
def upsertStructOrderStep (cfgCompany : String) (po : PurchaseOrder) (rawId : Option Nat)
    (db : Db) : Db :=
  if hasStructOrder db po.id then db
  else
    { db with
      orders := db.orders ++ [{ id := po.id, companyId := cfgCompany,
                                commodityId := po.commodityId, quantity := po.quantity,
                                unit := po.unit, pricePerUnit := po.pricePerUnit,
                                currency := po.currency, deliveryDate := po.deliveryDate,
                                createdAt := po.createdAt, status := po.status,
                                rawErpDataId := rawId }] }

/-- Source `upsertRawAndStructured(po)` on the committed path: raw insert,
id resolution, structured insert, inside one transaction. -/
def upsertRawAndStructured (cfgCompany : String) (po : PurchaseOrder) (db : Db) : Db :=
  let r := upsertRawOrderStep cfgCompany po db
  upsertStructOrderStep cfgCompany po r.2 r.1

/-- Raw-log insert of `upsertRawAndStructuredInventory`. -/
def upsertRawInvStep (cfgCompany : String) (s : InventorySnapshot) (db : Db) : Db × Option Nat :=
  if hasRaw db cfgCompany "inventory_snapshot" s.id then
    (db, rawIdOf db cfgCompany "inventory_snapshot" s.id)
  else
    ({ db with
        raw := db.raw ++ [{ rowId := db.nextRawId, companyId := cfgCompany,
                            recordType := "inventory_snapshot", erpRecordId := s.id,
                            payload := .inv s }]
        nextRawId := db.nextRawId + 1 },
      some db.nextRawId)

/-- Structured insert of `upsertRawAndStructuredInventory`: `ON CONFLICT
(company_id, commodity_id, as_of) DO NOTHING`. -/
def upsertStructSnapStep (cfgCompany : String) (s : InventorySnapshot) (rawId : Option Nat)
    (db : Db) : Db :=
  if hasStructSnap db cfgCompany s.commodityId s.asOf then db
  else
    { db with
      snapshots := db.snapshots ++ [{ companyId := cfgCompany, commodityId := s.commodityId,
                                      onHand := s.onHand, unit := s.unit, asOf := s.asOf,
                                      rawErpDataId := rawId }] }

/-- Source `upsertRawAndStructuredInventory(snapshot)` on the committed path. -/
def upsertRawAndStructuredInventory (cfgCompany : String) (s : InventorySnapshot) (db : Db) : Db :=
  let r := upsertRawInvStep cfgCompany s db
  upsertStructSnapStep cfgCompany s r.2 r.1

/-- Outcome of one record's transaction: committed, or failed at the raw
insert, or failed at the structured insert. -/
inductive TxOutcome where
  | ok
  | failRaw
  | failStructured
deriving DecidableEq

/-- Transactional wrapper: `BEGIN` / two inserts / `COMMIT`, with
`ROLLBACK` on any error.  A failed transaction leaves the committed
database exactly as it was, whichever step raised. -/
def txUpsertOrder (outcome : TxOutcome) (cfgCompany : String) (po : PurchaseOrder)
    (db : Db) : Option Db :=
  if outcome = .ok then some (upsertRawAndStructured cfgCompany po db) else none

/-- Transactional wrapper for the snapshot path. -/
def txUpsertInventory (outcome : TxOutcome) (cfgCompany : String) (s : InventorySnapshot)
    (db : Db) : Option Db :=
  if outcome = .ok then some (upsertRawAndStructuredInventory cfgCompany s db) else none

/-- Extractor closure state: the database it writes, the two watermarks,
and the identifiers logged by the per-record error handlers. -/
structure ExtState where
  db : Db
  lastSync : Int
  lastInventorySync : Int
  errLog : List String
deriving DecidableEq

/-- Body of `storeOrders`'s loop for one order: attempt the transaction;
on error, log the order id and continue. -/
def storeOrdersStep (cfgCompany : String) (fl : PurchaseOrder → TxOutcome)
    (s : ExtState) (po : PurchaseOrder) : ExtState :=
  match txUpsertOrder (fl po) cfgCompany po s.db with
  | some db2 => { s with db := db2 }
  | none => { s with errLog := s.errLog ++ [po.id] }

/-- The `reduce` in `storeOrders`: latest `createdAt` of the batch. -/
def maxCreatedAt : List PurchaseOrder → Option Int
  | [] => none
  | po :: rest =>
    match maxCreatedAt rest with
    | none => some po.createdAt
    | some m => some (max po.createdAt m)

/-- Source `storeOrders(orders)`: attempt every order of the batch in
order (failures logged, loop continues), then advance `lastSync` to the
newest `createdAt` seen if it is newer. -/
def storeOrders (cfgCompany : String) (fl : PurchaseOrder → TxOutcome)
    (orders : List PurchaseOrder) (s : ExtState) : ExtState :=
  let s1 := orders.foldl (storeOrdersStep cfgCompany fl) s
  match maxCreatedAt orders with
  | none => s1
  | some m => if s1.lastSync < m then { s1 with lastSync := m } else s1

/-- Body of `storeInventory`'s loop for one snapshot. -/
def storeInventoryStep (cfgCompany : String) (fl : InventorySnapshot → TxOutcome)
    (s : ExtState) (sn : InventorySnapshot) : ExtState :=
  match txUpsertInventory (fl sn) cfgCompany sn s.db with
  | some db2 => { s with db := db2 }
  | none => { s with errLog := s.errLog ++ [sn.id] }

/-- Latest `asOf` of a snapshot batch. -/
def maxAsOf : List InventorySnapshot → Option Int
  | [] => none
  | sn :: rest =>
    match maxAsOf rest with
    | none => some sn.asOf
    | some m => some (max sn.asOf m)

/-- Source `storeInventory(snapshots)`. -/
def storeInventory (cfgCompany : String) (fl : InventorySnapshot → TxOutcome)
    (snaps : List InventorySnapshot) (s : ExtState) : ExtState :=
  let s1 := snaps.foldl (storeInventoryStep cfgCompany fl) s
  match maxAsOf snaps with
  | none => s1
  | some m => if s1.lastInventorySync < m then { s1 with lastInventorySync := m } else s1

/-- One firing of `pollLoop`: fetch orders newer than `lastSync` from the
simulator's query surface and store them (when any), then likewise for
snapshots against `lastInventorySync`. -/
def pollStep (cfgCompany : String) (fl : PurchaseOrder → TxOutcome)
    (flInv : InventorySnapshot → TxOutcome) (simPOs : List PurchaseOrder)
    (simSnaps : List InventorySnapshot) (s : ExtState) : ExtState :=
  let orders := simQueryOrders simPOs (some s.lastSync)
  let s1 := if orders ≠ [] then storeOrders cfgCompany fl orders s else s
  let snaps := simQueryInventory simSnaps (some s1.lastInventorySync)
  if snaps ≠ [] then storeInventory cfgCompany flInv snaps s1 else s1

/-- One inbound delivery to the extractor: a webhook receipt carrying a
single order, or a poll batch. -/
inductive Delivery where
  | push (po : PurchaseOrder)
  | pull (batch : List PurchaseOrder)

/-- Process one delivery.  The webhook handler of
`POST /webhooks/erp/purchase-order` calls `storeOrders([body])`; the poll
channel calls `storeOrders(batch)`. -/
def deliverOne (cfgCompany : String) (fl : PurchaseOrder → TxOutcome)
    (d : Delivery) (s : ExtState) : ExtState :=
  match d with
  | .push po => storeOrders cfgCompany fl [po] s
  | .pull batch => storeOrders cfgCompany fl batch s

/-- Process a sequence of deliveries in order. -/
def runDeliveries (cfgCompany : String) (fl : PurchaseOrder → TxOutcome) :
    List Delivery → ExtState → ExtState
  | [], s => s
  | d :: ds, s => runDeliveries cfgCompany fl ds (deliverOne cfgCompany fl d s)

/-- The delivery hands the payload p to the extractor: a webhook receipt
of p itself, or a poll batch containing p. -/
def DeliversPayload (p : PurchaseOrder) : Delivery → Prop
  | .push po => po = p
  | .pull batch => p ∈ batch

/-- Number of raw-log rows carrying a given conflict key. -/
def countRawKey (db : Db) (c t e : String) : Nat :=
  (db.raw.filter (fun r => r.companyId == c && r.recordType == t && r.erpRecordId == e)).length

/-- Number of structured order rows with a given id. -/
def countStructOrder (db : Db) (i : String) : Nat :=
  (db.orders.filter (fun r => r.id == i)).length

/-! Helper lemmas about the persistence layer. -/

theorem any_iff_filter_pos (l : List α) (p : α → Bool) :
    l.any p = true ↔ 0 < (l.filter p).length := by
  induction l with
  | nil => simp
  | cons a l ih =>
    by_cases h : p a = true <;> simp [List.filter_cons, h, ih]

theorem hasRaw_iff (db : Db) (c t e : String) :
    hasRaw db c t e = true ↔ 0 < countRawKey db c t e :=
  any_iff_filter_pos _ _

theorem hasStructOrder_iff (db : Db) (i : String) :
    hasStructOrder db i = true ↔ 0 < countStructOrder db i :=
  any_iff_filter_pos _ _

theorem raw_upsertStructOrderStep (c : String) (po : PurchaseOrder) (rid : Option Nat) (db : Db) :
    (upsertStructOrderStep c po rid db).raw = db.raw := by
  unfold upsertStructOrderStep; split <;> rfl

theorem orders_upsertRawOrderStep (c : String) (po : PurchaseOrder) (db : Db) :
    (upsertRawOrderStep c po db).1.orders = db.orders := by
  unfold upsertRawOrderStep; split <;> rfl

theorem upsertRawAndStructured_eq (c : String) (po : PurchaseOrder) (db : Db) :
    upsertRawAndStructured c po db =
      upsertStructOrderStep c po (upsertRawOrderStep c po db).2 (upsertRawOrderStep c po db).1 :=
  rfl

theorem countRaw_upsert (c2 c t e : String) (po : PurchaseOrder) (db : Db) :
    countRawKey (upsertRawAndStructured c2 po db) c t e =
      if c = c2 ∧ t = "purchase_order" ∧ e = po.id ∧
          hasRaw db c2 "purchase_order" po.id = false
      then countRawKey db c t e + 1 else countRawKey db c t e := by
  unfold countRawKey
  rw [upsertRawAndStructured_eq, raw_upsertStructOrderStep]
  unfold upsertRawOrderStep
  by_cases h : hasRaw db c2 "purchase_order" po.id = true
  · simp [h]
  · rw [if_neg h]
    simp only [Bool.not_eq_true] at h
    by_cases hm : c = c2 ∧ t = "purchase_order" ∧ e = po.id
    · obtain ⟨h1, h2, h3⟩ := hm
      subst h1; subst h2; subst h3
      simp [h, List.filter_append]
    · rw [if_neg (by tauto)]
      simp only [List.filter_append, List.length_append]
      have hrow : ((c2 == c) && (("purchase_order" : String) == t) && (po.id == e)) = false := by
        simp only [Bool.and_eq_false_iff, beq_eq_false_iff_ne, ne_eq]
        by_cases hc : c2 = c
        · by_cases ht : ("purchase_order" : String) = t
          · right; intro he; exact hm ⟨hc.symm, ht.symm, he.symm⟩
          · left; right; exact ht
        · left; left; exact hc
      simp [List.filter, hrow]

theorem countStruct_upsert (c2 i : String) (po : PurchaseOrder) (db : Db) :
    countStructOrder (upsertRawAndStructured c2 po db) i =
      if i = po.id ∧ hasStructOrder db po.id = false
      then countStructOrder db i + 1 else countStructOrder db i := by
  have hOrd := orders_upsertRawOrderStep c2 po db
  have hHas : hasStructOrder (upsertRawOrderStep c2 po db).1 po.id = hasStructOrder db po.id := by
    unfold hasStructOrder; rw [hOrd]
  unfold countStructOrder
  rw [upsertRawAndStructured_eq]
  unfold upsertStructOrderStep
  rw [hHas]
  by_cases h : hasStructOrder db po.id = true
  · simp [h, hOrd]
  · rw [if_neg (by simp [h])]
    simp only [Bool.not_eq_true] at h
    by_cases hm : i = po.id
    · subst hm; simp [h, hOrd, List.filter_append]
    · rw [if_neg (by tauto)]
      have hrow : (po.id == i) = false := by
        simp only [beq_eq_false_iff_ne, ne_eq]
        exact fun hh => hm hh.symm
      simp [hOrd, List.filter_append, List.filter, hrow]

theorem countRaw_upsert_le_one (c2 c t e : String) (po : PurchaseOrder) (db : Db)
    (h : countRawKey db c t e ≤ 1) :
    countRawKey (upsertRawAndStructured c2 po db) c t e ≤ 1 := by
  rw [countRaw_upsert]
  split
  · next hc =>
    obtain ⟨h1, h2, h3, h4⟩ := hc
    have h0 : countRawKey db c t e = 0 := by
      rw [h1, h2, h3]
      by_contra hne
      have hp := (hasRaw_iff db c2 "purchase_order" po.id).mpr (Nat.pos_of_ne_zero hne)
      rw [h4] at hp
      exact Bool.false_ne_true hp
    omega
  · exact h

theorem countRaw_upsert_mono (c2 c t e : String) (po : PurchaseOrder) (db : Db) :
    countRawKey db c t e ≤ countRawKey (upsertRawAndStructured c2 po db) c t e := by
  rw [countRaw_upsert]; split <;> omega

theorem countRaw_upsert_pos (c2 : String) (po : PurchaseOrder) (db : Db) :
    0 < countRawKey (upsertRawAndStructured c2 po db) c2 "purchase_order" po.id := by
  rw [countRaw_upsert]
  by_cases h : hasRaw db c2 "purchase_order" po.id = true
  · have := (hasRaw_iff db c2 "purchase_order" po.id).mp h
    split <;> omega
  · simp only [Bool.not_eq_true] at h
    rw [if_pos ⟨rfl, rfl, rfl, h⟩]
    omega

theorem countStruct_upsert_le_one (c2 i : String) (po : PurchaseOrder) (db : Db)
    (h : countStructOrder db i ≤ 1) :
    countStructOrder (upsertRawAndStructured c2 po db) i ≤ 1 := by
  rw [countStruct_upsert]
  split
  · next hc =>
    obtain ⟨h1, h2⟩ := hc
    have h0 : countStructOrder db i = 0 := by
      rw [h1]
      by_contra hne
      have hp := (hasStructOrder_iff db po.id).mpr (Nat.pos_of_ne_zero hne)
      rw [h2] at hp
      exact Bool.false_ne_true hp
    omega
  · exact h

theorem countStruct_upsert_mono (c2 i : String) (po : PurchaseOrder) (db : Db) :
    countStructOrder db i ≤ countStructOrder (upsertRawAndStructured c2 po db) i := by
  rw [countStruct_upsert]; split <;> omega

theorem countStruct_upsert_pos (c2 : String) (po : PurchaseOrder) (db : Db) :
    0 < countStructOrder (upsertRawAndStructured c2 po db) po.id := by
  rw [countStruct_upsert]
  by_cases h : hasStructOrder db po.id = true
  · have := (hasStructOrder_iff db po.id).mp h
    split <;> omega
  · simp only [Bool.not_eq_true] at h
    rw [if_pos ⟨rfl, h⟩]
    omega

/-- Pure database effect of a committed order batch, in order. -/
def foldUpserts (c : String) (orders : List PurchaseOrder) (db : Db) : Db :=
  orders.foldl (fun d po => upsertRawAndStructured c po d) db

theorem foldUpserts_raw_le_one (c2 c t e : String) (orders : List PurchaseOrder) (db : Db)
    (h : countRawKey db c t e ≤ 1) :
    countRawKey (foldUpserts c2 orders db) c t e ≤ 1 := by
  induction orders generalizing db with
  | nil => exact h
  | cons po rest ih => exact ih _ (countRaw_upsert_le_one c2 c t e po db h)

theorem foldUpserts_raw_mono (c2 c t e : String) (orders : List PurchaseOrder) (db : Db) :
    countRawKey db c t e ≤ countRawKey (foldUpserts c2 orders db) c t e := by
  induction orders generalizing db with
  | nil => exact Nat.le_refl _
  | cons po rest ih =>
    exact Nat.le_trans (countRaw_upsert_mono c2 c t e po db) (ih _)

theorem foldUpserts_struct_le_one (c2 i : String) (orders : List PurchaseOrder) (db : Db)
    (h : countStructOrder db i ≤ 1) :
    countStructOrder (foldUpserts c2 orders db) i ≤ 1 := by
  induction orders generalizing db with
  | nil => exact h
  | cons po rest ih => exact ih _ (countStruct_upsert_le_one c2 i po db h)

theorem foldUpserts_struct_mono (c2 i : String) (orders : List PurchaseOrder) (db : Db) :
    countStructOrder db i ≤ countStructOrder (foldUpserts c2 orders db) i := by
  induction orders generalizing db with
  | nil => exact Nat.le_refl _
  | cons po rest ih =>
    exact Nat.le_trans (countStruct_upsert_mono c2 i po db) (ih _)

theorem foldUpserts_pos_of_mem (c2 : String) (p : PurchaseOrder) (orders : List PurchaseOrder)
    (db : Db) (hmem : p ∈ orders) :
    0 < countRawKey (foldUpserts c2 orders db) c2 "purchase_order" p.id ∧
    0 < countStructOrder (foldUpserts c2 orders db) p.id := by
  induction orders generalizing db with
  | nil => cases hmem
  | cons po rest ih =>
    rcases List.mem_cons.mp hmem with hEq | hMem
    · subst hEq
      constructor
      · exact Nat.lt_of_lt_of_le (countRaw_upsert_pos c2 p db)
          (foldUpserts_raw_mono c2 c2 "purchase_order" p.id rest _)
      · exact Nat.lt_of_lt_of_le (countStruct_upsert_pos c2 p db)
          (foldUpserts_struct_mono c2 p.id rest _)
    · exact ih _ hMem

/-! Decomposition of `storeOrders` and `storeInventory`. -/

theorem storeOrdersStep_cases (c : String) (fl : PurchaseOrder → TxOutcome)
    (s : ExtState) (po : PurchaseOrder) :
    storeOrdersStep c fl s po =
      if fl po = .ok then { s with db := upsertRawAndStructured c po s.db }
      else { s with errLog := s.errLog ++ [po.id] } := by
  unfold storeOrdersStep txUpsertOrder
  by_cases h : fl po = .ok <;> simp [h]

theorem foldStore_db (c : String) (fl : PurchaseOrder → TxOutcome)
    (orders : List PurchaseOrder) (s : ExtState) :
    (orders.foldl (storeOrdersStep c fl) s).db =
      foldUpserts c (orders.filter (fun po => fl po == .ok)) s.db := by
  induction orders generalizing s with
  | nil => rfl
  | cons po rest ih =>
    rw [List.foldl_cons, ih, storeOrdersStep_cases]
    by_cases h : fl po = .ok <;> simp [h, List.filter_cons, foldUpserts]

theorem foldStore_errLog (c : String) (fl : PurchaseOrder → TxOutcome)
    (orders : List PurchaseOrder) (s : ExtState) :
    (orders.foldl (storeOrdersStep c fl) s).errLog =
      s.errLog ++ (orders.filter (fun po => !(fl po == .ok))).map (·.id) := by
  induction orders generalizing s with
  | nil => simp
  | cons po rest ih =>
    rw [List.foldl_cons, ih, storeOrdersStep_cases]
    by_cases h : fl po = .ok <;> simp [h, List.filter_cons]

theorem foldStore_lastSync (c : String) (fl : PurchaseOrder → TxOutcome)
    (orders : List PurchaseOrder) (s : ExtState) :
    (orders.foldl (storeOrdersStep c fl) s).lastSync = s.lastSync := by
  induction orders generalizing s with
  | nil => rfl
  | cons po rest ih =>
    rw [List.foldl_cons, ih, storeOrdersStep_cases]
    by_cases h : fl po = .ok <;> simp [h]

theorem storeOrders_db (c : String) (fl : PurchaseOrder → TxOutcome)
    (orders : List PurchaseOrder) (s : ExtState) :
    (storeOrders c fl orders s).db =
      foldUpserts c (orders.filter (fun po => fl po == .ok)) s.db := by
  unfold storeOrders
  rcases h : maxCreatedAt orders with _ | m
  · exact foldStore_db c fl orders s
  · simp only []
    split
    · exact foldStore_db c fl orders s
    · exact foldStore_db c fl orders s

theorem storeOrders_errLog (c : String) (fl : PurchaseOrder → TxOutcome)
    (orders : List PurchaseOrder) (s : ExtState) :
    (storeOrders c fl orders s).errLog =
      s.errLog ++ (orders.filter (fun po => !(fl po == .ok))).map (·.id) := by
  unfold storeOrders
  rcases h : maxCreatedAt orders with _ | m
  · exact foldStore_errLog c fl orders s
  · simp only []
    split
    · exact foldStore_errLog c fl orders s
    · exact foldStore_errLog c fl orders s

theorem storeOrders_lastSync (c : String) (fl : PurchaseOrder → TxOutcome)
    (orders : List PurchaseOrder) (s : ExtState) :
    (storeOrders c fl orders s).lastSync =
      (maxCreatedAt orders).elim s.lastSync (fun m => max s.lastSync m) := by
  unfold storeOrders
  rcases h : maxCreatedAt orders with _ | m
  · simp [foldStore_lastSync]
  · simp only [Option.elim]
    have hfold := foldStore_lastSync c fl orders s
    by_cases hlt : (orders.foldl (storeOrdersStep c fl) s).lastSync < m
    · rw [if_pos hlt]
      show m = max s.lastSync m
      rw [hfold] at hlt
      exact (max_eq_right (le_of_lt hlt)).symm
    · rw [if_neg hlt]
      rw [hfold] at hlt ⊢
      exact (max_eq_left (not_lt.mp hlt)).symm

/-- Pure database effect of a committed snapshot batch, in order. -/
def foldUpsertsInv (c : String) (snaps : List InventorySnapshot) (db : Db) : Db :=
  snaps.foldl (fun d sn => upsertRawAndStructuredInventory c sn d) db

theorem storeInventoryStep_cases (c : String) (fl : InventorySnapshot → TxOutcome)
    (s : ExtState) (sn : InventorySnapshot) :
    storeInventoryStep c fl s sn =
      if fl sn = .ok then { s with db := upsertRawAndStructuredInventory c sn s.db }
      else { s with errLog := s.errLog ++ [sn.id] } := by
  unfold storeInventoryStep txUpsertInventory
  by_cases h : fl sn = .ok <;> simp [h]

theorem foldStoreInv_db (c : String) (fl : InventorySnapshot → TxOutcome)
    (snaps : List InventorySnapshot) (s : ExtState) :
    (snaps.foldl (storeInventoryStep c fl) s).db =
      foldUpsertsInv c (snaps.filter (fun sn => fl sn == .ok)) s.db := by
  induction snaps generalizing s with
  | nil => rfl
  | cons sn rest ih =>
    rw [List.foldl_cons, ih, storeInventoryStep_cases]
    by_cases h : fl sn = .ok <;> simp [h, List.filter_cons, foldUpsertsInv]

theorem foldStoreInv_errLog (c : String) (fl : InventorySnapshot → TxOutcome)
    (snaps : List InventorySnapshot) (s : ExtState) :
    (snaps.foldl (storeInventoryStep c fl) s).errLog =
      s.errLog ++ (snaps.filter (fun sn => !(fl sn == .ok))).map (·.id) := by
  induction snaps generalizing s with
  | nil => simp
  | cons sn rest ih =>
    rw [List.foldl_cons, ih, storeInventoryStep_cases]
    by_cases h : fl sn = .ok <;> simp [h, List.filter_cons]

theorem storeInventory_db (c : String) (fl : InventorySnapshot → TxOutcome)
    (snaps : List InventorySnapshot) (s : ExtState) :
    (storeInventory c fl snaps s).db =
      foldUpsertsInv c (snaps.filter (fun sn => fl sn == .ok)) s.db := by
  unfold storeInventory
  rcases h : maxAsOf snaps with _ | m
  · exact foldStoreInv_db c fl snaps s
  · simp only []
    split
    · exact foldStoreInv_db c fl snaps s
    · exact foldStoreInv_db c fl snaps s

theorem storeInventory_errLog (c : String) (fl : InventorySnapshot → TxOutcome)
    (snaps : List InventorySnapshot) (s : ExtState) :
    (storeInventory c fl snaps s).errLog =
      s.errLog ++ (snaps.filter (fun sn => !(fl sn == .ok))).map (·.id) := by
  unfold storeInventory
  rcases h : maxAsOf snaps with _ | m
  · exact foldStoreInv_errLog c fl snaps s
  · simp only []
    split
    · exact foldStoreInv_errLog c fl snaps s
    · exact foldStoreInv_errLog c fl snaps s

/-! Lemmas about delivery sequences with no persistence failures. -/

/-- Outcome function of a run without persistence failures. -/
def okOutcome : PurchaseOrder → TxOutcome := fun _ => .ok

/-- Outcome function of a failure-free snapshot run. -/
def okOutcomeInv : InventorySnapshot → TxOutcome := fun _ => .ok

/-- The order batch a delivery carries. -/
def batchOf : Delivery → List PurchaseOrder
  | .push po => [po]
  | .pull batch => batch

theorem storeOrders_ok_db (c : String) (orders : List PurchaseOrder) (s : ExtState) :
    (storeOrders c okOutcome orders s).db = foldUpserts c orders s.db := by
  rw [storeOrders_db]
  congr 1
  exact List.filter_eq_self.mpr (fun po _ => rfl)

theorem deliverOne_db (c : String) (d : Delivery) (s : ExtState) :
    (deliverOne c okOutcome d s).db = foldUpserts c (batchOf d) s.db := by
  cases d with
  | push po => exact storeOrders_ok_db c [po] s
  | pull batch => exact storeOrders_ok_db c batch s

theorem mem_batchOf_of_delivers (p : PurchaseOrder) (d : Delivery)
    (h : DeliversPayload p d) : p ∈ batchOf d := by
  cases d with
  | push po => simp only [DeliversPayload] at h; simp [batchOf, h]
  | pull batch => exact h

theorem runDeliveries_le_one (c : String) (p : PurchaseOrder) (ds : List Delivery) (s : ExtState)
    (hraw : countRawKey s.db c "purchase_order" p.id ≤ 1)
    (hstr : countStructOrder s.db p.id ≤ 1) :
    countRawKey (runDeliveries c okOutcome ds s).db c "purchase_order" p.id ≤ 1 ∧
    countStructOrder (runDeliveries c okOutcome ds s).db p.id ≤ 1 := by
  induction ds generalizing s with
  | nil => exact ⟨hraw, hstr⟩
  | cons d rest ih =>
    apply ih
    · rw [deliverOne_db]
      exact foldUpserts_raw_le_one c c "purchase_order" p.id (batchOf d) s.db hraw
    · rw [deliverOne_db]
      exact foldUpserts_struct_le_one c p.id (batchOf d) s.db hstr

theorem runDeliveries_pos (c : String) (p : PurchaseOrder) (ds : List Delivery) (s : ExtState)
    (hraw : 0 < countRawKey s.db c "purchase_order" p.id)
    (hstr : 0 < countStructOrder s.db p.id) :
    0 < countRawKey (runDeliveries c okOutcome ds s).db c "purchase_order" p.id ∧
    0 < countStructOrder (runDeliveries c okOutcome ds s).db p.id := by
  induction ds generalizing s with
  | nil => exact ⟨hraw, hstr⟩
  | cons d rest ih =>
    apply ih
    · rw [deliverOne_db]
      exact Nat.lt_of_lt_of_le hraw (foldUpserts_raw_mono c c "purchase_order" p.id (batchOf d) s.db)
    · rw [deliverOne_db]
      exact Nat.lt_of_lt_of_le hstr (foldUpserts_struct_mono c p.id (batchOf d) s.db)

theorem upsert_noop_of_present (c : String) (p : PurchaseOrder) (db : Db)
    (h1 : hasRaw db c "purchase_order" p.id = true)
    (h2 : hasStructOrder db p.id = true) :
    upsertRawAndStructured c p db = db := by
  rw [upsertRawAndStructured_eq]
  unfold upsertRawOrderStep
  rw [if_pos h1]
  unfold upsertStructOrderStep
  simp [h2]

/-- C1: delivering a fixed purchase-order payload any number N >= 1 of
times, through any mixture of webhook pushes and poll batches, leaves
exactly one raw-log row under the key (tenant, "purchase_order", payload
id) and exactly one structured order row with that id; moreover once both
rows exist a further delivery of the payload is a no-op on the database. -/
theorem ingestDedupExactlyOnce (c : String) (p : PurchaseOrder) (ds : List Delivery)
    (s : ExtState)
    (hne : ds ≠ [])
    (hall : ∀ d ∈ ds, DeliversPayload p d)
    (hraw0 : countRawKey s.db c "purchase_order" p.id = 0)
    (hstr0 : countStructOrder s.db p.id = 0) :
    countRawKey (runDeliveries c okOutcome ds s).db c "purchase_order" p.id = 1 ∧
    countStructOrder (runDeliveries c okOutcome ds s).db p.id = 1 ∧
    ∀ db : Db, hasRaw db c "purchase_order" p.id = true →
      hasStructOrder db p.id = true → upsertRawAndStructured c p db = db := by
  refine ⟨?_, ?_, fun db hh1 hh2 => upsert_noop_of_present c p db hh1 hh2⟩ <;>
  · cases ds with
    | nil => exact absurd rfl hne
    | cons d rest =>
      have hmem : p ∈ batchOf d :=
        mem_batchOf_of_delivers p d (hall d (List.mem_cons_self d rest))
      have hs1db : (deliverOne c okOutcome d s).db = foldUpserts c (batchOf d) s.db :=
        deliverOne_db c d s
      have hpos := foldUpserts_pos_of_mem c p (batchOf d) s.db hmem
      have hle1 : countRawKey (deliverOne c okOutcome d s).db c "purchase_order" p.id ≤ 1 := by
        rw [hs1db]
        exact foldUpserts_raw_le_one c c "purchase_order" p.id (batchOf d) s.db (by omega)
      have hle2 : countStructOrder (deliverOne c okOutcome d s).db p.id ≤ 1 := by
        rw [hs1db]
        exact foldUpserts_struct_le_one c p.id (batchOf d) s.db (by omega)
      have hp1 : 0 < countRawKey (deliverOne c okOutcome d s).db c "purchase_order" p.id := by
        rw [hs1db]; exact hpos.1
      have hp2 : 0 < countStructOrder (deliverOne c okOutcome d s).db p.id := by
        rw [hs1db]; exact hpos.2
      have hfin1 := runDeliveries_le_one c p rest (deliverOne c okOutcome d s) hle1 hle2
      have hfin2 := runDeliveries_pos c p rest (deliverOne c okOutcome d s) hp1 hp2
      show _ = 1
      simp only [runDeliveries]
      omega

/-- C6: the raw insert and the structured insert for one record form one
atomic unit — after a batch, the database equals the committed upserts of
exactly the records whose transaction succeeded, applied in order (a
failed record leaves no partial write), and the error log gains exactly
the identifiers of the failed records, so siblings in the batch are still
attempted after a failure.  The same holds on the snapshot path. -/
theorem perRecordTransactionAtomic (c : String) (fl : PurchaseOrder → TxOutcome)
    (flInv : InventorySnapshot → TxOutcome) (orders : List PurchaseOrder)
    (snaps : List InventorySnapshot) (s : ExtState) :
    (storeOrders c fl orders s).db =
      foldUpserts c (orders.filter (fun po => fl po == .ok)) s.db ∧
    (storeOrders c fl orders s).errLog =
      s.errLog ++ (orders.filter (fun po => !(fl po == .ok))).map (·.id) ∧
    (storeInventory c flInv snaps s).db =
      foldUpsertsInv c (snaps.filter (fun sn => flInv sn == .ok)) s.db ∧
    (storeInventory c flInv snaps s).errLog =
      s.errLog ++ (snaps.filter (fun sn => !(flInv sn == .ok))).map (·.id) :=
  ⟨storeOrders_db c fl orders s, storeOrders_errLog c fl orders s,
   storeInventory_db c flInv snaps s, storeInventory_errLog c flInv snaps s⟩

theorem snapshots_upsertRawInvStep (c : String) (sn : InventorySnapshot) (db : Db) :
    (upsertRawInvStep c sn db).1.snapshots = db.snapshots := by
  unfold upsertRawInvStep; split <;> rfl

theorem upsertRawAndStructuredInventory_eq (c : String) (sn : InventorySnapshot) (db : Db) :
    upsertRawAndStructuredInventory c sn db =
      upsertStructSnapStep c sn (upsertRawInvStep c sn db).2 (upsertRawInvStep c sn db).1 :=
  rfl

/-- C9: conflict-do-nothing means there is no update path — once a
structured order row exists for an id, a later delivery with the same id
(whatever its other fields, in particular its status) leaves the
structured order table unchanged, and likewise a structured snapshot row
under its (tenant, commodity, as-of) key freezes the snapshot table for
that key. -/
theorem structuredRowsFrozen (c : String) :
    (∀ (po : PurchaseOrder) (db : Db), hasStructOrder db po.id = true →
      (upsertRawAndStructured c po db).orders = db.orders) ∧
    (∀ (sn : InventorySnapshot) (db : Db), hasStructSnap db c sn.commodityId sn.asOf = true →
      (upsertRawAndStructuredInventory c sn db).snapshots = db.snapshots) := by
  constructor
  · intro po db h
    rw [upsertRawAndStructured_eq]
    have hOrd := orders_upsertRawOrderStep c po db
    have hHas : hasStructOrder (upsertRawOrderStep c po db).1 po.id = true := by
      unfold hasStructOrder; rw [hOrd]; exact h
    unfold upsertStructOrderStep
    rw [if_pos hHas]
    exact hOrd
  · intro sn db h
    rw [upsertRawAndStructuredInventory_eq]
    have hSnap := snapshots_upsertRawInvStep c sn db
    have hHas : hasStructSnap (upsertRawInvStep c sn db).1 c sn.commodityId sn.asOf = true := by
      unfold hasStructSnap; rw [hSnap]; exact h
    unfold upsertStructSnapStep
    rw [if_pos hHas]
    exact hSnap

/-! Concrete fixtures used by witnesses and counterexamples. -/

/-- A concrete purchase-order payload (timestamps in milliseconds). -/
def po1 : PurchaseOrder :=
  { id := "po-1", companyId := "co-1", commodityId := "sugar", commodityName := "Sugar",
    quantity := 100, unit := "lb", pricePerUnit := 1, currency := "USD",
    deliveryDate := 35, createdAt := 5, status := "confirmed" }

/-- A second concrete payload with a different id. -/
def po2 : PurchaseOrder :=
  { id := "po-2", companyId := "co-1", commodityId := "flour", commodityName := "Flour",
    quantity := 200, unit := "lb", pricePerUnit := 3, currency := "USD",
    deliveryDate := 39, createdAt := 9, status := "confirmed" }

/-- Empty database. -/
def db0 : Db := { raw := [], orders := [], snapshots := [], nextRawId := 1 }

/-- Fresh extractor state: empty database, watermarks at the epoch. -/
def extS0 : ExtState := { db := db0, lastSync := 0, lastInventorySync := 0, errLog := [] }

/-- Witness for C1 at a concrete mixture of two pushes and one poll batch. -/
theorem ingestDedupExactlyOnce_witness :
    countRawKey (runDeliveries "co-1" okOutcome
        [.push po1, .pull [po2, po1], .push po1] extS0).db "co-1" "purchase_order" "po-1" = 1 ∧
    countStructOrder (runDeliveries "co-1" okOutcome
        [.push po1, .pull [po2, po1], .push po1] extS0).db "po-1" = 1 := by
  have h := ingestDedupExactlyOnce "co-1" po1 [.push po1, .pull [po2, po1], .push po1] extS0
    (by simp)
    (by intro d hd; fin_cases hd <;> simp [DeliversPayload, po1, po2])
    (by decide) (by decide)
  exact ⟨h.1, h.2.1⟩

/-- Structured order row already persisted for id "po-1", with the
extractor-side lifecycle status. -/
def row0 : OrderRow :=
  { id := "po-1", companyId := "co-1", commodityId := "sugar", quantity := 100,
    unit := "lb", pricePerUnit := 1, currency := "USD", deliveryDate := 35,
    createdAt := 5, status := "in_approval", rawErpDataId := some 1 }

/-- Database already holding `row0`. -/
def db1 : Db := { raw := [], orders := [row0], snapshots := [], nextRawId := 2 }

/-- Re-delivery of order "po-1" whose status and quantity have changed at
the source after first ingestion. -/
def po1b : PurchaseOrder :=
  { id := "po-1", companyId := "co-1", commodityId := "sugar", commodityName := "Sugar",
    quantity := 250, unit := "lb", pricePerUnit := 1, currency := "USD",
    deliveryDate := 35, createdAt := 5, status := "supplied" }

/-- Structured snapshot row already persisted for (co-1, sugar, 700). -/
def snapRow0 : SnapshotRow :=
  { companyId := "co-1", commodityId := "sugar", onHand := 100, unit := "lb",
    asOf := 700, rawErpDataId := some 1 }

/-- Database already holding `snapRow0`. -/
def db2 : Db := { raw := [], orders := [], snapshots := [snapRow0], nextRawId := 2 }

/-- Re-delivered snapshot for the same (tenant, commodity, as-of) key with
a different on-hand value. -/
def sn1 : InventorySnapshot :=
  { id := "inv_sugar_700", companyId := "co-1", commodityId := "sugar",
    commodityName := "Sugar", onHand := 55, unit := "lb", asOf := 700 }

/-- Witness for C9: a payload with the same id but different status and
quantity leaves the stored structured row untouched, and likewise for a
snapshot under its natural key. -/
theorem structuredRowsFrozen_witness :
    (upsertRawAndStructured "co-1" po1b db1).orders = db1.orders ∧
    po1b.status ≠ row0.status ∧ po1b.quantity ≠ row0.quantity ∧
    (upsertRawAndStructuredInventory "co-1" sn1 db2).snapshots = db2.snapshots ∧
    sn1.onHand ≠ snapRow0.onHand := by
  refine ⟨(structuredRowsFrozen "co-1").1 po1b db1 (by decide), by decide, by decide,
    (structuredRowsFrozen "co-1").2 sn1 db2 (by decide), by decide⟩

/-- C2 (amended): a crash after fetching but before persisting leaves the
watermark untouched — the batch is a pure function of the simulator list
and the old watermark, the per-record loop never modifies `lastSync`, and
re-polling the (append-only, hence superset) simulator list with the same
watermark returns every order of the original batch; `lastSync` is set
only once per completed `storeOrders` pass, to the maximum of the old
watermark and the batch's newest `createdAt`, regardless of per-record
persistence failures. -/
theorem watermarkAfterBatch (c : String) (fl : PurchaseOrder → TxOutcome)
    (simL simL2 : List PurchaseOrder) (w : Int) (hsub : simL.Sublist simL2) :
    (∀ po ∈ simQueryOrders simL (some w), po ∈ simQueryOrders simL2 (some w)) ∧
    (∀ (s : ExtState) (po : PurchaseOrder),
      (storeOrdersStep c fl s po).lastSync = s.lastSync) ∧
    (∀ (s : ExtState) (orders : List PurchaseOrder),
      (storeOrders c fl orders s).lastSync =
        (maxCreatedAt orders).elim s.lastSync (fun m => max s.lastSync m)) := by
  refine ⟨?_, ?_, ?_⟩
  · intro po hpo
    exact (hsub.filter (fun q => decide (w < q.createdAt))).subset hpo
  · intro s po
    rw [storeOrdersStep_cases]
    split <;> rfl
  · intro s orders
    exact storeOrders_lastSync c fl orders s

/-- Witness for the amended C2 at a concrete batch and a concrete growth
of the simulator's order list. -/
theorem watermarkAfterBatch_witness :
    po1 ∈ simQueryOrders [po1, po2] (some 0) ∧
    (storeOrdersStep "co-1" okOutcome extS0 po1).lastSync = extS0.lastSync ∧
    (storeOrders "co-1" okOutcome [po1] extS0).lastSync = 5 := by
  have h := watermarkAfterBatch "co-1" okOutcome [po1] [po1, po2] 0
    (List.sublist_append_left [po1] [po2])
  refine ⟨h.1 po1 (by decide), h.2.1 extS0 po1, ?_⟩
  rw [h.2.2 extS0 [po1]]
  decide

/-- All order transactions fail (for instance the database connection is
lost mid-transaction for each record of the batch). -/
def failRawAll : PurchaseOrder → TxOutcome := fun _ => .failRaw

/-- Extractor state after one poll against a simulator holding exactly
`po1`, where the record's transaction fails. -/
def crashPoll1 : ExtState := pollStep "co-1" failRawAll okOutcomeInv [po1] [] extS0

/-- C2 (counterexample to the claim as stated): `po1` is returned by the
query surface of the poll, its persistence fails, yet `lastSync` still
advances to its `createdAt`; re-polling with the current watermark
returns nothing and every later poll is a fixpoint, so the record is
neither persisted nor ever re-fetched — it is permanently skipped. -/
theorem watermarkSkipsFailedRecord :
    simQueryOrders [po1] (some extS0.lastSync) = [po1] ∧
    countRawKey crashPoll1.db "co-1" "purchase_order" "po-1" = 0 ∧
    countStructOrder crashPoll1.db "po-1" = 0 ∧
    crashPoll1.errLog = ["po-1"] ∧
    crashPoll1.lastSync = 5 ∧
    simQueryOrders [po1] (some crashPoll1.lastSync) = [] ∧
    pollStep "co-1" failRawAll okOutcomeInv [po1] [] crashPoll1 = crashPoll1 := by
  decide

/-! Default simulator configuration, from the constant tables at the top
of services/erp-sim/src/index.ts. -/

/-- Source `DEFAULT_COMMODITIES`. -/
def defaultCommodities : List Commodity :=
  [ { id := "sugar", name := "Sugar", unit := "lb", basePrice := 45/100 },
    { id := "flour", name := "Flour", unit := "lb", basePrice := 35/100 },
    { id := "butter", name := "Butter", unit := "lb", basePrice := 32/10 },
    { id := "eggs", name := "Eggs", unit := "dozen", basePrice := 24/10 },
    { id := "vanilla", name := "Vanilla Extract", unit := "oz", basePrice := 125/100 },
    { id := "baking_soda", name := "Baking Soda", unit := "lb", basePrice := 8/10 },
    { id := "salt", name := "Salt", unit := "lb", basePrice := 2/10 },
    { id := "chocolate", name := "Chocolate Chips", unit := "lb", basePrice := 28/10 },
    { id := "milk", name := "Milk", unit := "gal", basePrice := 35/10 },
    { id := "yeast", name := "Yeast", unit := "oz", basePrice := 5/10 },
    { id := "oil", name := "Vegetable Oil", unit := "gal", basePrice := 51/10 },
    { id := "oats", name := "Oats", unit := "lb", basePrice := 9/10 } ]

/-- Source `DEFAULT_INITIAL_INVENTORY`. -/
def defaultInitialInventory : List (String × ℚ) :=
  [ ("sugar", 8000), ("flour", 12000), ("butter", 2500), ("eggs", 1500),
    ("vanilla", 400), ("baking_soda", 900), ("salt", 1200), ("chocolate", 3200),
    ("milk", 700), ("yeast", 250), ("oil", 500), ("oats", 6000) ]

/-- Source `DEFAULT_CONSUMPTION_PER_DAY` (yeast consumes 1.2 per day). -/
def defaultConsumptionPerDay : List (String × ℚ) :=
  [ ("sugar", 180), ("flour", 260), ("butter", 40), ("eggs", 18),
    ("vanilla", 3), ("baking_soda", 4), ("salt", 3), ("chocolate", 55),
    ("milk", 10), ("yeast", 12/10), ("oil", 3), ("oats", 90) ]

/-- Default configuration of `createSimServer` (no options, no env
overrides): the hard-coded tenant id, a 7-day step, probability 0.65. -/
def simCfg0 : SimConfig :=
  { companyId := "00000000-0000-0000-0000-000000000001"
    stepDays := 7
    purchaseProbabilityPerMonth := 65/100
    currency := "USD"
    commodities := defaultCommodities
    initialInventory := defaultInitialInventory
    consumptionPerDay := defaultConsumptionPerDay }

/-- The claim that the query surface's responses are bounded by some
result-count limit L, uniformly over simulator states. -/
def resultsBounded (cfg : SimConfig) : Prop :=
  ∃ L : Nat, ∀ (st : SimState) (since : Option Int),
    (respOrders (getPurchaseOrdersHandler cfg st cfg.companyId since).1).length ≤ L ∧
    (respSnaps (getInventoryHandler cfg st cfg.companyId since).1).length ≤ L

/-- C7 (counterexample to the bounded-result clause): the endpoints of
the simulator return the whole filtered list — no result-count limit
exists, since for every candidate bound L a state with L + 1 orders is
answered with all L + 1 of them. -/
theorem noResultCountLimit : ¬ resultsBounded simCfg0 := by
  rintro ⟨L, h⟩
  have hh := (h { initSimState simCfg0 0 with
      purchaseOrders := List.replicate (L + 1) po1 } none).1
  simp [getPurchaseOrdersHandler, respOrders, simQueryOrders] at hh

/-- C7 (amended): for the configured tenant, the purchase-order endpoint
returns exactly the orders created strictly after `since` (all orders
when `since` is absent) and the inventory endpoint exactly the snapshots
with `asOf` strictly after `since` (all when absent); the result is the
complete filtered list, with no result-count limit. -/
theorem sinceFilterExact (cfg : SimConfig) (st : SimState) (s : Int)
    (po : PurchaseOrder) (sn : InventorySnapshot) :
    (po ∈ respOrders (getPurchaseOrdersHandler cfg st cfg.companyId (some s)).1 ↔
      po ∈ st.purchaseOrders ∧ s < po.createdAt) ∧
    (po ∈ respOrders (getPurchaseOrdersHandler cfg st cfg.companyId none).1 ↔
      po ∈ st.purchaseOrders) ∧
    (sn ∈ respSnaps (getInventoryHandler cfg st cfg.companyId (some s)).1 ↔
      sn ∈ st.inventorySnapshots ∧ s < sn.asOf) ∧
    (sn ∈ respSnaps (getInventoryHandler cfg st cfg.companyId none).1 ↔
      sn ∈ st.inventorySnapshots) := by
  refine ⟨?_, ?_, ?_, ?_⟩ <;>
    simp [getPurchaseOrdersHandler, getInventoryHandler, respOrders, respSnaps,
      simQueryOrders, simQueryInventory, List.mem_filter]

/-- C10: any request whose tenant path parameter differs from the
configured tenant id is answered 404 "company not found" by all three
endpoints with the simulator state unchanged, and a subscription request
without a callbackUrl (absent or empty, both falsy) is answered 400 with
the subscription set unchanged. -/
theorem tenantIsolation (cfg : SimConfig) (st : SimState) (rc : String)
    (since : Option Int) (cb : Option String) (h : rc ≠ cfg.companyId) :
    getPurchaseOrdersHandler cfg st rc since = (⟨404, .errBody "company not found"⟩, st) ∧
    getInventoryHandler cfg st rc since = (⟨404, .errBody "company not found"⟩, st) ∧
    postSubscriptionsHandler cfg st rc cb = (⟨404, .errBody "company not found"⟩, st) ∧
    postSubscriptionsHandler cfg st cfg.companyId none =
      (⟨400, .errBody "callbackUrl required"⟩, st) ∧
    postSubscriptionsHandler cfg st cfg.companyId (some "") =
      (⟨400, .errBody "callbackUrl required"⟩, st) := by
  refine ⟨?_, ?_, ?_, ?_, ?_⟩ <;>
    simp [getPurchaseOrdersHandler, getInventoryHandler, postSubscriptionsHandler, h]

/-- Witness for C10 at the default configuration and a wrong tenant id. -/
theorem tenantIsolation_witness :
    getPurchaseOrdersHandler simCfg0 (initSimState simCfg0 0) "other-co" none =
      (⟨404, .errBody "company not found"⟩, initSimState simCfg0 0) ∧
    postSubscriptionsHandler simCfg0 (initSimState simCfg0 0) simCfg0.companyId none =
      (⟨400, .errBody "callbackUrl required"⟩, initSimState simCfg0 0) := by
  have h := tenantIsolation simCfg0 (initSimState simCfg0 0) "other-co" none none
    (by decide)
  exact ⟨h.1, h.2.2.2.1⟩

/-- C3: every purchase order the simulator creates carries status
"confirmed" — a value outside the lifecycle alphabet — and the simulator
has no code path that ever mutates an order's status, so the specified
lifecycle in_approval to executed to supplied never occurs in this
version of the simulator. -/
theorem generatedOrderStatus (cfg : SimConfig) (rng : OrderRng) (c : Commodity)
    (monthStart : Int) (st : SimState) (po : PurchaseOrder)
    (h : (maybeGenerateMonthlyOrder cfg rng c monthStart st).1 = some po) :
    po.status = "confirmed" ∧ po.status ≠ "in_approval" ∧
    po.status ≠ "executed" ∧ po.status ≠ "supplied" := by
  simp only [maybeGenerateMonthlyOrder] at h
  split at h
  · exact absurd h (by simp)
  · split at h
    · exact absurd h (by simp)
    · simp only [Option.some.injEq] at h
      subst h
      refine ⟨rfl, ?_, ?_, ?_⟩ <;> · show ("confirmed" : String) ≠ _; decide

/-- The sugar commodity of the default configuration. -/
def sugarC : Commodity := { id := "sugar", name := "Sugar", unit := "lb", basePrice := 45/100 }

/-- Concrete random draws: probability draw 0 (below any positive
threshold), zero day offset, fixed uuid, centred quantity and price
draws. -/
def rng0 : OrderRng :=
  { probDraw := 0, offsetDraw := 0, uuid := "uuid-1", qtyDraw := 1/2, priceDraw := 1/2 }

/-- Witness for C3: the first sugar order generated at the epoch month
under the default configuration has status "confirmed", not
"in_approval". -/
theorem generatedOrderStatus_witness :
    ∃ po, (maybeGenerateMonthlyOrder simCfg0 rng0 sugarC 0 (initSimState simCfg0 0)).1 = some po ∧
      po.status = "confirmed" ∧ po.status ≠ "in_approval" := by
  have hev : ∃ po,
      (maybeGenerateMonthlyOrder simCfg0 rng0 sugarC 0 (initSimState simCfg0 0)).1 = some po := by
    simp only [maybeGenerateMonthlyOrder]
    rw [if_neg (by simp [initSimState])]
    rw [if_neg (by norm_num [simCfg0, rng0])]
    exact ⟨_, rfl⟩
  obtain ⟨po, hpo⟩ := hev
  exact ⟨po, hpo, (generatedOrderStatus simCfg0 rng0 sugarC 0 (initSimState simCfg0 0) po hpo).1,
    (generatedOrderStatus simCfg0 rng0 sugarC 0 (initSimState simCfg0 0) po hpo).2.1⟩

/-- C4: a simulation step that stays inside one calendar month creates no
purchase order at all, whatever the inventory state — the simulator's
only order-creation trigger is the month-boundary crossing (then gated by
a probability draw), and no safety-stock or days-of-cover check exists. -/
theorem tickWithinMonthNoOrders (cfg : SimConfig) (rng : TickRng) (st : SimState)
    (h : monthKey st.simNow = monthKey (addDays st.simNow cfg.stepDays)) :
    (tick cfg rng st).purchaseOrders = st.purchaseOrders := by
  simp only [tick]
  rw [if_neg (by simp [h])]
  simp [advanceInventory]

/-- Single-commodity configuration with consumption 100 per day and
initial stock 1000, so days of cover start at 10, far below the
45-day safety threshold of the specification's scenario. -/
def cfg4 : SimConfig :=
  { companyId := "co-1", stepDays := 7, purchaseProbabilityPerMonth := 1,
    currency := "USD", commodities := [sugarC],
    initialInventory := [("sugar", 1000)], consumptionPerDay := [("sugar", 100)] }

/-- A full tick's worth of draws. -/
def tickRng0 : TickRng := { perCommodity := fun _ => rng0 }

/-- Witness for C4's failing input: consumption rate 100 with on-hand
1000 gives 10 days of cover, below the 45-day threshold, yet the first
7-day step (entirely inside January 1970) creates no order. -/
theorem tickWithinMonthNoOrders_witness :
    (0 : ℚ) < 100 ∧
    (initSimState cfg4 0).inventoryByCommodity "sugar" / 100 < 45 ∧
    (tick cfg4 tickRng0 (initSimState cfg4 0)).purchaseOrders = [] := by
  refine ⟨by norm_num, ?_, ?_⟩
  · norm_num [initSimState, initInventory, cfg4, lookupQ, sugarC]
  · exact (tickWithinMonthNoOrders cfg4 tickRng0 (initSimState cfg4 0) (by decide)).trans rfl

/-! Non-negativity of the simulated inventory. -/

theorem randomWithin_nonneg (base variationPct u : ℚ) : 0 ≤ randomWithin base variationPct u :=
  le_max_left 0 _

theorem round2_nonneg (q : ℚ) (h : 0 ≤ q) : 0 ≤ round2 q := by
  unfold round2
  have h1 : (0 : Int) ≤ round (100 * q) := by
    rw [round_eq]
    exact Int.floor_nonneg.mpr (by linarith)
  positivity

/-- Invariant carried through the simulator: all on-hand values, all
pending delivery quantities, and all recorded snapshots are non-negative. -/
def InvNonneg (st : SimState) : Prop :=
  (∀ id, 0 ≤ st.inventoryByCommodity id) ∧
  (∀ d ∈ st.pendingDeliveries, 0 ≤ d.quantity) ∧
  (∀ sn ∈ st.inventorySnapshots, 0 ≤ sn.onHand)

/-- The configured initial on-hand quantities are non-negative. -/
def NonnegConfig (cfg : SimConfig) : Prop :=
  ∀ p ∈ cfg.initialInventory, 0 ≤ p.2

theorem initInventory_nonneg (cfg : SimConfig) (hcfg : NonnegConfig cfg) :
    ∀ id, 0 ≤ initInventory cfg id := by
  intro id
  unfold initInventory
  split
  · unfold lookupQ
    rcases hf : cfg.initialInventory.find? (fun p => p.1 == id) with _ | pr
    · simp [hf]
    · have hmem := List.mem_of_find?_eq_some hf
      simp only [hf, Option.map_some, Option.getD_some]
      exact hcfg pr hmem
  · exact le_refl 0

theorem foldConsume_nonneg (cfg : SimConfig) (days : Int) (cs : List Commodity)
    (inv : String → ℚ) (h : ∀ id, 0 ≤ inv id) :
    ∀ id, 0 ≤ (cs.foldl (fun acc c =>
      updateQ acc c.id (max 0 (acc c.id - (lookupQ cfg.consumptionPerDay c.id).getD 0 * (days : ℚ))))
      inv) id := by
  induction cs generalizing inv with
  | nil => exact h
  | cons c rest ih =>
    apply ih
    intro id
    simp only [updateQ]
    split
    · exact le_max_left 0 _
    · exact h id

theorem consumeStep_nonneg (cfg : SimConfig) (days : Int) (inv : String → ℚ)
    (h : ∀ id, 0 ≤ inv id) : ∀ id, 0 ≤ consumeStep cfg days inv id :=
  foldConsume_nonneg cfg days cfg.commodities inv h

theorem applyDeliveries_fst_nonneg (t : Int) (ds : List PendingDelivery) (inv : String → ℚ)
    (hinv : ∀ id, 0 ≤ inv id) (hq : ∀ d ∈ ds, 0 ≤ d.quantity) :
    ∀ id, 0 ≤ (applyDeliveries t ds inv).1 id := by
  induction ds generalizing inv with
  | nil => exact hinv
  | cons d rest ih =>
    unfold applyDeliveries
    split
    · apply ih
      · intro id
        unfold updateQ
        split
        · have h1 := hinv d.commodityId
          have h2 := hq d (List.mem_cons_self d rest)
          linarith
        · exact hinv id
      · exact fun e he => hq e (List.mem_cons_of_mem d he)
    · exact ih inv hinv (fun e he => hq e (List.mem_cons_of_mem d he))

theorem applyDeliveries_snd_subset (t : Int) (ds : List PendingDelivery) (inv : String → ℚ) :
    ∀ d ∈ (applyDeliveries t ds inv).2, d ∈ ds := by
  induction ds generalizing inv with
  | nil => intro d hd; cases hd
  | cons d rest ih =>
    unfold applyDeliveries
    split
    · intro e he
      exact List.mem_cons_of_mem d (ih _ e he)
    · intro e he
      rcases List.mem_cons.mp he with hEq | hMem
      · exact hEq ▸ List.mem_cons_self d rest
      · exact List.mem_cons_of_mem d (ih inv e hMem)

theorem recordWeeklyInventory_nonneg (cfg : SimConfig) (t : Int) (inv : String → ℚ)
    (hinv : ∀ id, 0 ≤ inv id) :
    ∀ sn ∈ recordWeeklyInventory cfg t inv, 0 ≤ sn.onHand := by
  intro sn hsn
  obtain ⟨c, _, hc⟩ := List.mem_map.mp hsn
  subst hc
  exact round2_nonneg _ (hinv c.id)

theorem advanceInventory_invNonneg (cfg : SimConfig) (fromMs toMs : Int) (st : SimState)
    (h : InvNonneg st) : InvNonneg (advanceInventory cfg fromMs toMs st) := by
  obtain ⟨h1, h2, h3⟩ := h
  have hinv1 : ∀ id, 0 ≤ (if 0 < max 0 (jsRound (((toMs - fromMs : Int) : ℚ) / (dayMs : ℚ)))
      then consumeStep cfg (max 0 (jsRound (((toMs - fromMs : Int) : ℚ) / (dayMs : ℚ))))
        st.inventoryByCommodity
      else st.inventoryByCommodity) id := by
    split
    · exact consumeStep_nonneg cfg _ _ h1
    · exact h1
  refine ⟨?_, ?_, ?_⟩
  · exact applyDeliveries_fst_nonneg toMs st.pendingDeliveries _ hinv1 h2
  · intro d hd
    exact h2 d (applyDeliveries_snd_subset toMs st.pendingDeliveries _ d hd)
  · intro sn hsn
    rcases List.mem_append.mp hsn with hOld | hNew
    · exact h3 sn hOld
    · exact recordWeeklyInventory_nonneg cfg toMs _
        (applyDeliveries_fst_nonneg toMs st.pendingDeliveries _ hinv1 h2) sn hNew

theorem bootStep_invNonneg (cfg : SimConfig) (next : Int) (st : SimState)
    (h : InvNonneg st) : InvNonneg (bootStep cfg next st) := by
  obtain ⟨h1, h2, h3⟩ := h
  have hinv1 : ∀ id, 0 ≤ consumeStep cfg cfg.stepDays st.inventoryByCommodity id :=
    consumeStep_nonneg cfg _ _ h1
  refine ⟨?_, ?_, ?_⟩
  · exact applyDeliveries_fst_nonneg next st.pendingDeliveries _ hinv1 h2
  · intro d hd
    exact h2 d (applyDeliveries_snd_subset next st.pendingDeliveries _ d hd)
  · intro sn hsn
    rcases List.mem_append.mp hsn with hOld | hNew
    · exact h3 sn hOld
    · exact recordWeeklyInventory_nonneg cfg next _
        (applyDeliveries_fst_nonneg next st.pendingDeliveries _ hinv1 h2) sn hNew

theorem maybeGen_invNonneg (cfg : SimConfig) (rng : OrderRng) (c : Commodity)
    (monthStart : Int) (st : SimState) (h : InvNonneg st) :
    InvNonneg (maybeGenerateMonthlyOrder cfg rng c monthStart st).2 := by
  obtain ⟨h1, h2, h3⟩ := h
  simp only [maybeGenerateMonthlyOrder]
  split
  · exact ⟨h1, h2, h3⟩
  · split
    · exact ⟨h1, h2, h3⟩
    · refine ⟨h1, ?_, h3⟩
      intro d hd
      rcases List.mem_append.mp hd with hOld | hNew
      · exact h2 d hOld
      · rw [List.mem_singleton.mp hNew]
        exact round2_nonneg _ (randomWithin_nonneg _ _ _)

theorem generateMonthOrders_invNonneg (cfg : SimConfig) (rng : TickRng) (monthStart : Int)
    (st : SimState) (h : InvNonneg st) :
    InvNonneg (generateMonthOrders cfg rng monthStart st).2 := by
  unfold generateMonthOrders
  have hgen : ∀ (cs : List Commodity) (acc : List PurchaseOrder × SimState),
      InvNonneg acc.2 →
      InvNonneg ((cs.foldl (fun acc c =>
        match (maybeGenerateMonthlyOrder cfg (rng.perCommodity c.id) c monthStart acc.2).1 with
        | some po => (acc.1 ++ [po],
            (maybeGenerateMonthlyOrder cfg (rng.perCommodity c.id) c monthStart acc.2).2)
        | none => (acc.1,
            (maybeGenerateMonthlyOrder cfg (rng.perCommodity c.id) c monthStart acc.2).2)) acc).2) := by
    intro cs
    induction cs with
    | nil => exact fun acc h => h
    | cons c rest ih =>
      intro acc hacc
      rw [List.foldl_cons]
      apply ih
      have hstep := maybeGen_invNonneg cfg (rng.perCommodity c.id) c monthStart acc.2 hacc
      rcases hm : (maybeGenerateMonthlyOrder cfg (rng.perCommodity c.id) c monthStart acc.2).1
        with _ | po <;> simp [hm, hstep]
  exact hgen cfg.commodities ([], st) h

theorem pushOrders_invNonneg (orders : List PurchaseOrder) (st : SimState)
    (h : InvNonneg st) : InvNonneg (pushOrders orders st) := h

theorem resetInventory_invNonneg (cfg : SimConfig) (st : SimState)
    (hcfg : NonnegConfig cfg) (h : InvNonneg st) : InvNonneg (resetInventory cfg st) :=
  ⟨initInventory_nonneg cfg hcfg, h.2.1, h.2.2⟩

theorem tick_invNonneg (cfg : SimConfig) (rng : TickRng) (st : SimState)
    (h : InvNonneg st) : InvNonneg (tick cfg rng st) := by
  simp only [tick]
  have hst1 : InvNonneg (if monthKey st.simNow ≠ monthKey (addDays st.simNow cfg.stepDays) then
      (if (generateMonthOrders cfg rng (startOfMonthUTC (addDays st.simNow cfg.stepDays)) st).1 ≠ []
        then pushOrders (sortByCreatedAt
            (generateMonthOrders cfg rng (startOfMonthUTC (addDays st.simNow cfg.stepDays)) st).1)
          (generateMonthOrders cfg rng (startOfMonthUTC (addDays st.simNow cfg.stepDays)) st).2
        else (generateMonthOrders cfg rng (startOfMonthUTC (addDays st.simNow cfg.stepDays)) st).2)
      else st) := by
    split
    · split
      · exact pushOrders_invNonneg _ _
          (generateMonthOrders_invNonneg cfg rng _ st h)
      · exact generateMonthOrders_invNonneg cfg rng _ st h
    · exact h
  have hadv := advanceInventory_invNonneg cfg st.simNow (addDays st.simNow cfg.stepDays) _ hst1
  exact ⟨hadv.1, hadv.2.1, hadv.2.2⟩

theorem initSimState_invNonneg (cfg : SimConfig) (t : Int) (hcfg : NonnegConfig cfg) :
    InvNonneg (initSimState cfg t) := by
  refine ⟨initInventory_nonneg cfg hcfg, ?_, ?_⟩ <;> intro x hx <;> cases hx

theorem simReach_invNonneg (cfg : SimConfig) (st : SimState)
    (hcfg : NonnegConfig cfg) (hr : SimReach cfg st) : InvNonneg st := by
  induction hr with
  | init t => exact initSimState_invNonneg cfg t hcfg
  | reset st _ ih => exact resetInventory_invNonneg cfg st hcfg ih
  | gen rng c monthStart st _ ih => exact maybeGen_invNonneg cfg rng c monthStart st ih
  | push orders st _ ih => exact pushOrders_invNonneg orders st ih
  | boot next st _ ih => exact bootStep_invNonneg cfg next st ih
  | adv fromMs toMs st _ ih => exact advanceInventory_invNonneg cfg fromMs toMs st ih
  | tick rng st _ ih => exact tick_invNonneg cfg rng st ih

/-- C5: at every state the simulator can reach through bootstrap and live
steps (with non-negative configured initial stock), every on-hand value
is non-negative — consumption is floored at zero and deliveries only add
non-negative quantities — and hence every recorded snapshot's onHand is
non-negative as well. -/
theorem inventoryNeverNegative (cfg : SimConfig) (st : SimState)
    (hcfg : NonnegConfig cfg) (hr : SimReach cfg st) :
    (∀ id, 0 ≤ st.inventoryByCommodity id) ∧
    ∀ sn ∈ st.inventorySnapshots, 0 ≤ sn.onHand := by
  have h := simReach_invNonneg cfg st hcfg hr
  exact ⟨h.1, h.2.2⟩

/-- Witness for C5 after one live tick of the default configuration. -/
theorem inventoryNeverNegative_witness :
    0 ≤ (tick simCfg0 tickRng0 (initSimState simCfg0 0)).inventoryByCommodity "sugar" :=
  (inventoryNeverNegative simCfg0 (tick simCfg0 tickRng0 (initSimState simCfg0 0))
    (by simp only [NonnegConfig, simCfg0]; decide)
    (SimReach.tick tickRng0 (initSimState simCfg0 0) (SimReach.init 0))).1 "sugar"

/-! Exactly-once application of pending deliveries. -/

/-- Sum of the quantities of a pending-delivery list. -/
def sumQ (l : List PendingDelivery) : ℚ := (l.map (·.quantity)).sum

theorem applyDeliveries_snd_eq (t : Int) (ds : List PendingDelivery) (inv : String → ℚ) :
    (applyDeliveries t ds inv).2 = ds.filter (fun d => decide (t < d.deliveryDate)) := by
  induction ds generalizing inv with
  | nil => rfl
  | cons d rest ih =>
    unfold applyDeliveries
    split
    · next h =>
      rw [List.filter_cons, if_neg (by simpa using by omega)]
      exact ih _
    · next h =>
      rw [List.filter_cons, if_pos (by simpa using by omega)]
      simp only []
      rw [ih]

theorem applyDeliveries_fst_eq (t : Int) (ds : List PendingDelivery) (inv : String → ℚ)
    (cid : String) :
    (applyDeliveries t ds inv).1 cid =
      inv cid + sumQ ((ds.filter (fun e => decide (e.deliveryDate ≤ t))).filter
        (fun e => e.commodityId == cid)) := by
  induction ds generalizing inv with
  | nil => simp [applyDeliveries, sumQ]
  | cons d rest ih =>
    unfold applyDeliveries
    split
    · next h =>
      rw [List.filter_cons, if_pos (by simpa using h)]
      by_cases hc : d.commodityId = cid
      · rw [List.filter_cons, if_pos (by simp [hc])]
        rw [ih]
        have hupd : updateQ inv d.commodityId (inv d.commodityId + d.quantity) cid =
            inv cid + d.quantity := by
          unfold updateQ
          rw [if_pos (by simp [hc]), hc]
        rw [hupd]
        simp only [sumQ, List.map_cons, List.sum_cons]
        ring
      · rw [List.filter_cons, if_neg (by simp [hc])]
        rw [ih]
        have hupd : updateQ inv d.commodityId (inv d.commodityId + d.quantity) cid = inv cid := by
          unfold updateQ
          rw [if_neg (by simp; exact fun hh => hc hh.symm)]
        rw [hupd]
    · next h =>
      rw [List.filter_cons, if_neg (by simpa using h)]
      exact ih inv

/-- Per-step arrival lists of a run: entry k holds the pending deliveries
consumed by the step with end time ts k, starting from pending list p. -/
def arrivalsTrace (p : List PendingDelivery) : List Int → List (List PendingDelivery)
  | [] => []
  | t :: ts =>
    p.filter (fun d => decide (d.deliveryDate ≤ t)) ::
      arrivalsTrace (p.filter (fun d => decide (t < d.deliveryDate))) ts

theorem arrivalsTrace_length (p : List PendingDelivery) (ts : List Int) :
    (arrivalsTrace p ts).length = ts.length := by
  induction ts generalizing p with
  | nil => rfl
  | cons t ts ih => simp [arrivalsTrace, ih]

theorem arrivalsTrace_subset (p : List PendingDelivery) (ts : List Int) :
    ∀ l ∈ arrivalsTrace p ts, ∀ d ∈ l, d ∈ p := by
  induction ts generalizing p with
  | nil => intro l hl; cases hl
  | cons t ts ih =>
    intro l hl d hd
    rcases List.mem_cons.mp hl with hEq | hMem
    · subst hEq
      exact (List.mem_filter.mp hd).1
    · exact (List.mem_filter.mp (ih _ l hMem d hd)).1

theorem arrivalsTrace_mem_iff (d : PendingDelivery) (p : List PendingDelivery)
    (ts : List Int) (hd : d ∈ p) :
    ∀ i, i < ts.length →
      (d ∈ (arrivalsTrace p ts).getD i [] ↔
        (d.deliveryDate ≤ ts.getD i 0 ∧ ∀ j, j < i → ts.getD j 0 < d.deliveryDate)) := by
  induction ts generalizing p with
  | nil => intro i hi; cases hi
  | cons t ts ih =>
    intro i hi
    cases i with
    | zero =>
      simp only [arrivalsTrace, List.getD_cons_zero, List.mem_filter, hd, true_and,
        decide_eq_true_eq]
      constructor
      · intro h; exact ⟨h, fun j hj => absurd hj (Nat.not_lt_zero j)⟩
      · intro h; exact h.1
    | succ i =>
      simp only [arrivalsTrace, List.getD_cons_succ]
      by_cases hkeep : t < d.deliveryDate
      · have hd2 : d ∈ p.filter (fun e => decide (t < e.deliveryDate)) :=
          List.mem_filter.mpr ⟨hd, by simpa using hkeep⟩
        rw [ih _ hd2 i (by simpa using hi)]
        constructor
        · rintro ⟨h1, h2⟩
          refine ⟨h1, ?_⟩
          intro j hj
          cases j with
          | zero => simpa using hkeep
          | succ j => exact h2 j (by omega)
        · rintro ⟨h1, h2⟩
          exact ⟨h1, fun j hj => h2 (j + 1) (by omega)⟩
      · constructor
        · intro hmem
          have hlen : i < (arrivalsTrace (p.filter (fun e => decide (t < e.deliveryDate))) ts).length := by
            rw [arrivalsTrace_length]
            simpa using hi
          rw [List.getD_eq_getElem _ _ hlen] at hmem
          have := arrivalsTrace_subset (p.filter (fun e => decide (t < e.deliveryDate))) ts
            _ (List.getElem_mem hlen) d hmem
          have := (List.mem_filter.mp this).2
          simp only [decide_eq_true_eq] at this
          exact absurd this hkeep
        · rintro ⟨h1, h2⟩
          have := h2 0 (Nat.succ_pos i)
          simp only [List.getD_cons_zero] at this
          exact absurd this hkeep

/-- C8: one pending delivery is created together with each purchase
order, referencing it and carrying its quantity and delivery date; each
inventory step removes exactly the due entries and adds their quantities
to on-hand; and across any run of steps, an entry is consumed exactly at
the first step whose end time has reached its delivery date — it appears
in one arrival list at most, never twice. -/
theorem pendingDeliveryAppliedOnce (cfg : SimConfig) (rng : OrderRng) (c : Commodity)
    (ms : Int) (st : SimState) (po : PurchaseOrder) (p : List PendingDelivery)
    (d : PendingDelivery) (ts : List Int)
    (hgen : (maybeGenerateMonthlyOrder cfg rng c ms st).1 = some po)
    (hd : d ∈ p) :
    ((maybeGenerateMonthlyOrder cfg rng c ms st).2.pendingDeliveries =
        st.pendingDeliveries ++ [mkPending c po] ∧
      (mkPending c po).purchaseOrderId = po.id ∧
      (mkPending c po).quantity = po.quantity ∧
      (mkPending c po).deliveryDate = po.deliveryDate) ∧
    (∀ (fromMs toMs : Int) (st2 : SimState),
      (advanceInventory cfg fromMs toMs st2).pendingDeliveries =
        st2.pendingDeliveries.filter (fun e => decide (toMs < e.deliveryDate))) ∧
    (∀ (toMs : Int) (ds : List PendingDelivery) (inv : String → ℚ) (cid : String),
      (applyDeliveries toMs ds inv).1 cid =
        inv cid + sumQ ((ds.filter (fun e => decide (e.deliveryDate ≤ toMs))).filter
          (fun e => e.commodityId == cid))) ∧
    (∀ i, i < ts.length →
      (d ∈ (arrivalsTrace p ts).getD i [] ↔
        (d.deliveryDate ≤ ts.getD i 0 ∧ ∀ j, j < i → ts.getD j 0 < d.deliveryDate))) ∧
    (∀ i j, i < ts.length → j < ts.length →
      d ∈ (arrivalsTrace p ts).getD i [] → d ∈ (arrivalsTrace p ts).getD j [] → i = j) := by
  refine ⟨?_, ?_, ?_, arrivalsTrace_mem_iff d p ts hd, ?_⟩
  · simp only [maybeGenerateMonthlyOrder] at hgen ⊢
    split at hgen
    · exact absurd hgen (by simp)
    · next h1 =>
      rw [if_neg h1]
      split at hgen
      · exact absurd hgen (by simp)
      · next h2 =>
        rw [if_neg h2]
        simp only [Option.some.injEq] at hgen
        subst hgen
        exact ⟨rfl, rfl, rfl, rfl⟩
  · intro fromMs toMs st2
    exact applyDeliveries_snd_eq toMs st2.pendingDeliveries _
  · intro toMs ds inv cid
    exact applyDeliveries_fst_eq toMs ds inv cid
  · intro i j hi hj hmi hmj
    have hhi := (arrivalsTrace_mem_iff d p ts hd i hi).mp hmi
    have hhj := (arrivalsTrace_mem_iff d p ts hd j hj).mp hmj
    by_contra hne
    rcases Nat.lt_or_ge i j with hij | hij
    · exact absurd hhi.1 (not_le.mpr (hhj.2 i hij))
    · have : j < i := by omega
      exact absurd hhj.1 (not_le.mpr (hhi.2 j this))

/-- Concrete pending delivery due at time 15, created for order po-1. -/
def dX : PendingDelivery :=
  { commodityId := "sugar", quantity := 100, unit := "lb", deliveryDate := 15,
    purchaseOrderId := "po-1" }

/-- Witness for C8: with step end times 10 and 20, the delivery due at 15
is consumed by the second step and only by it. -/
theorem pendingDeliveryAppliedOnce_witness :
    dX ∈ (arrivalsTrace [dX] [10, 20]).getD 1 [] ∧
    dX ∉ (arrivalsTrace [dX] [10, 20]).getD 0 [] := by
  have hev : ∃ po,
      (maybeGenerateMonthlyOrder simCfg0 rng0 sugarC 0 (initSimState simCfg0 0)).1 = some po := by
    simp only [maybeGenerateMonthlyOrder]
    rw [if_neg (by simp [initSimState])]
    rw [if_neg (by norm_num [simCfg0, rng0])]
    exact ⟨_, rfl⟩
  obtain ⟨po, hpo⟩ := hev
  have h := pendingDeliveryAppliedOnce simCfg0 rng0 sugarC 0 (initSimState simCfg0 0) po
    [dX] dX [10, 20] hpo (List.mem_cons_self dX [])
  constructor
  · refine (h.2.2.2.1 1 (by decide)).mpr ⟨by decide, ?_⟩
    intro j hj
    have hj0 : j = 0 := by omega
    subst hj0
    decide
  · intro hm
    have hc := (h.2.2.2.1 0 (by decide)).mp hm
    exact absurd hc.1 (by decide)

end Finos
